import Mathlib

/-!
Verification of the Cyber News Agent pipeline.

Shallow embedding: Python strings are modelled as `List Char`; Python
`str.lower` is modelled character-wise over the ASCII range (the only
range the repository data exercises); Python `str.strip` drops the
ASCII whitespace characters from both ends; Python substring containment
(`x in y`) is an executable substring test; `datetime` values are
modelled as natural-number timestamps; functions that may raise are
modelled with `Option`/`Except`; external collaborators (the three news
connectors, the generative model, digest generation) are parameters of
the functions that call them, so every theorem quantifies over their
behaviour.
-/

set_option maxHeartbeats 1000000

abbrev Str := List Char

/-- ASCII whitespace recognised by Python `str.strip`. -/
def isSpaceB (c : Char) : Bool :=
  c = ' ' || c = '\t' || c = '\n' || c = '\x0d' || c = '\x0b' || c = '\x0c'

/-- ASCII lower-casing of one character, as Python `str.lower` acts on ASCII. -/
def lowerChar (c : Char) : Char :=
  if c = 'A' then 'a' else
  if c = 'B' then 'b' else
  if c = 'C' then 'c' else
  if c = 'D' then 'd' else
  if c = 'E' then 'e' else
  if c = 'F' then 'f' else
  if c = 'G' then 'g' else
  if c = 'H' then 'h' else
  if c = 'I' then 'i' else
  if c = 'J' then 'j' else
  if c = 'K' then 'k' else
  if c = 'L' then 'l' else
  if c = 'M' then 'm' else
  if c = 'N' then 'n' else
  if c = 'O' then 'o' else
  if c = 'P' then 'p' else
  if c = 'Q' then 'q' else
  if c = 'R' then 'r' else
  if c = 'S' then 's' else
  if c = 'T' then 't' else
  if c = 'U' then 'u' else
  if c = 'V' then 'v' else
  if c = 'W' then 'w' else
  if c = 'X' then 'x' else
  if c = 'Y' then 'y' else
  if c = 'Z' then 'z' else c

/-- Python `s.lower()`. -/
def pylower (s : Str) : Str := s.map lowerChar

/-- Python `s.strip()`. -/
def pystrip (s : Str) : Str :=
  ((s.dropWhile isSpaceB).reverse.dropWhile isSpaceB).reverse

/-- Test that `needle` is a prefix of `hay`. -/
def isPrefixB : Str → Str → Bool
  | [], _ => true
  | _ :: _, [] => false
  | a :: as, b :: bs => a == b && isPrefixB as bs

/-- Python substring containment `needle in hay`. -/
def isSubstrB (needle : Str) : Str → Bool
  | [] => needle.isEmpty
  | c :: t => isPrefixB needle (c :: t) || isSubstrB needle t

/-- Decimal rendering of a natural number (Python f-string interpolation). -/
def natStr (n : Nat) : Str := (Nat.repr n).toList

/-- Model of `models.NewsItem`: the unit of record. `published_at` is a timestamp. -/
structure NewsItem where
  title : Str
  content : Str
  url : Str
  source : Str
  published_at : Nat
  category : Str
  severity : Str
  tags : List Str
  summary : Str
deriving DecidableEq

/-- Result of one classifier call: the `{summary, category, severity, tags}`
dictionary returned by `SummarizerTool.analyze_news_item`. -/
structure Analysis where
  summary : Str
  category : Str
  severity : Str
  tags : List Str
deriving DecidableEq

/-! ## news_agent.py : CyberNewsAgent -/

/-- The dedup key of `CyberNewsAgent._deduplicate_news`:
`item.title.lower().strip()`. -/
def normTitle (t : Str) : Str := pystrip (pylower t)

/-- The loop of `CyberNewsAgent._deduplicate_news`, with the `seen_titles`
set threaded as an accumulator of keys. -/
def dedupGo (seen : List Str) : List NewsItem → List NewsItem
  | [] => []
  | it :: rest =>
    let key := normTitle it.title
    if key ∈ seen then dedupGo seen rest
    else it :: dedupGo (key :: seen) rest

/-- Model of `CyberNewsAgent._deduplicate_news`. -/
def deduplicate_news (items : List NewsItem) : List NewsItem :=
  dedupGo [] items

/-- Model of `CyberNewsAgent.collect_news`, with the three connector outputs
supplied as parameters (they are external collaborators): concatenate,
deduplicate by normalised title, truncate to `max_items`. -/
def collect_news (newsApiItems scrapedItems redditItems : List NewsItem)
    (max_items : Nat) : List NewsItem :=
  (deduplicate_news (newsApiItems ++ scrapedItems ++ redditItems)).take max_items

/-- The per-item field update in `CyberNewsAgent.analyze_and_categorize`. -/
def updateItem (it : NewsItem) (a : Analysis) : NewsItem :=
  { it with summary := a.summary, category := a.category,
            severity := a.severity, tags := a.tags }

/-- Model of `CyberNewsAgent.analyze_and_categorize`, with the summarizer call as a
parameter: `none` models `analyze_news_item` raising, in which case the
original item is appended unchanged and the loop continues. -/
def analyze_and_categorize (f : NewsItem → Option Analysis) :
    List NewsItem → List NewsItem
  | [] => []
  | it :: rest =>
    (match f it with
     | some a => updateItem it a
     | none => it) :: analyze_and_categorize f rest

/-- The match condition of `CyberNewsAgent.search_news`: the lower-cased
query occurs in the lower-cased title, content, or some lower-cased tag. -/
def searchMatch (queryLower : Str) (it : NewsItem) : Bool :=
  isSubstrB queryLower (pylower it.title) ||
  isSubstrB queryLower (pylower it.content) ||
  it.tags.any (fun tag => isSubstrB queryLower (pylower tag))

/-- The accumulating loop of `CyberNewsAgent.search_news`. -/
def searchGo (queryLower : Str) : List NewsItem → List NewsItem
  | [] => []
  | it :: rest =>
    if searchMatch queryLower it then it :: searchGo queryLower rest
    else searchGo queryLower rest

/-- Model of `CyberNewsAgent.search_news`. -/
def search_news (query : Str) (items : List NewsItem) : List NewsItem :=
  searchGo (pylower query) items

/-- The five-key dictionary built by `CyberNewsAgent.get_categorized_news`,
one field per fixed key. -/
structure CategorizedNews where
  latestAttacks : List NewsItem
  newTools : List NewsItem
  threatIntelligence : List NewsItem
  vulnerabilities : List NewsItem
  general : List NewsItem
deriving DecidableEq

/-- The empty five-bucket dictionary literal. -/
def emptyCategorized : CategorizedNews :=
  ⟨[], [], [], [], []⟩

/-- One iteration of the loop of `CyberNewsAgent.get_categorized_news`:
append to the bucket named by `item.category` when that key exists,
otherwise to `General`. -/
def addToCategory (c : CategorizedNews) (it : NewsItem) : CategorizedNews :=
  if it.category = "Latest Attacks".toList then
    { c with latestAttacks := c.latestAttacks ++ [it] }
  else if it.category = "New Tools".toList then
    { c with newTools := c.newTools ++ [it] }
  else if it.category = "Threat Intelligence".toList then
    { c with threatIntelligence := c.threatIntelligence ++ [it] }
  else if it.category = "Vulnerabilities".toList then
    { c with vulnerabilities := c.vulnerabilities ++ [it] }
  else
    { c with general := c.general ++ [it] }

/-- Model of `CyberNewsAgent.get_categorized_news`. -/
def get_categorized_news (items : List NewsItem) : CategorizedNews :=
  items.foldl addToCategory emptyCategorized

/-- The fixed key list of the dictionary in `get_categorized_news`. -/
def categoryKeys : List Str :=
  ["Latest Attacks".toList, "New Tools".toList, "Threat Intelligence".toList,
   "Vulnerabilities".toList, "General".toList]

/-- The bucket an item lands in: its own category when that is one of the
five keys, otherwise `General`. -/
def bucketOf (it : NewsItem) : Str :=
  if it.category ∈ categoryKeys then it.category else "General".toList

/-- The `{High, Medium, Low}` counter dictionary of
`CyberNewsAgent.get_severity_stats`. -/
structure SeverityStats where
  high : Nat
  medium : Nat
  low : Nat
deriving DecidableEq

/-- Model of `sum(severity_stats.values())`. -/
def statsSum (s : SeverityStats) : Nat := s.high + s.medium + s.low

/-- Model of `CyberNewsAgent.get_severity_stats`: items whose severity is not one of
the three keys are not counted. -/
def get_severity_stats : List NewsItem → SeverityStats
  | [] => ⟨0, 0, 0⟩
  | it :: rest =>
    let s := get_severity_stats rest
    if it.severity = "High".toList then { s with high := s.high + 1 }
    else if it.severity = "Medium".toList then { s with medium := s.medium + 1 }
    else if it.severity = "Low".toList then { s with low := s.low + 1 }
    else s

/-- The `PipelineResult` dictionary assembled by
`CyberNewsAgent.run_full_pipeline`. -/
structure PipelineResult where
  news_items : List NewsItem
  categorized_news : CategorizedNews
  daily_digest : Str
  severity_stats : SeverityStats
  total_items : Nat
  timestamp : Nat

/-- Model of `CyberNewsAgent.run_full_pipeline`: collect, classify, digest, bucket,
count, assemble. The summarizer call `f` and the digest generator
`digest` are external collaborators passed as parameters; `ts` models
`datetime.now()`. -/
def run_full_pipeline (f : NewsItem → Option Analysis)
    (digest : List NewsItem → Str) (ts : Nat)
    (newsApiItems scrapedItems redditItems : List NewsItem)
    (max_items : Nat) : PipelineResult :=
  let news_items := collect_news newsApiItems scrapedItems redditItems max_items
  let analyzed_items := analyze_and_categorize f news_items
  { news_items := analyzed_items
    categorized_news := get_categorized_news analyzed_items
    daily_digest := digest analyzed_items
    severity_stats := get_severity_stats analyzed_items
    total_items := analyzed_items.length
    timestamp := ts }

/-! ## tools/summarizer.py : SummarizerTool (rule-based path) -/

/-- The keyword list of the `Latest Attacks` entry of
the `self.categories` dictionary of `SummarizerTool.__init__`. -/
def kwLatestAttacks : List Str :=
  ["ransomware".toList, "malware".toList, "attack".toList, "breach".toList,
   "hack".toList, "incident".toList]

/-- The keyword list of the `Vulnerabilities` category. -/
def kwVulnerabilities : List Str :=
  ["vulnerability".toList, "exploit".toList, "cve".toList, "zero-day".toList,
   "patch".toList, "flaw".toList]

/-- The keyword list of the `New Tools` category. -/
def kwNewTools : List Str :=
  ["tool".toList, "platform".toList, "software".toList, "solution".toList,
   "framework".toList, "technology".toList]

/-- The keyword list of the `Threat Intelligence` category. -/
def kwThreatIntelligence : List Str :=
  ["threat".toList, "intelligence".toList, "apt".toList, "campaign".toList,
   "actor".toList, "group".toList]

/-- The keyword list of the `General` category. -/
def kwGeneral : List Str :=
  ["security".toList, "cybersecurity".toList, "infosec".toList,
   "policy".toList, "regulation".toList, "compliance".toList]

/-- Model of `sum(1 for keyword in keywords if keyword in content_text)`: the number
of keywords of the list occurring in the text. -/
def keywordScore (keywords : List Str) (text : Str) : Nat :=
  keywords.countP (fun k => isSubstrB k text)

/-- Model of `self.categories` in insertion order, paired with its keyword lists. -/
def categoriesList : List (Str × List Str) :=
  [("Latest Attacks".toList, kwLatestAttacks),
   ("Vulnerabilities".toList, kwVulnerabilities),
   ("New Tools".toList, kwNewTools),
   ("Threat Intelligence".toList, kwThreatIntelligence),
   ("General".toList, kwGeneral)]

/-- Python `max(d, key=d.get)` over an association list in insertion order:
scan left to right, replacing the current best only on a strictly greater
score, so the first maximal entry wins. -/
def maxKeyFirst (cur : Str × Nat) : List (Str × Nat) → Str × Nat
  | [] => cur
  | p :: rest => maxKeyFirst (if p.2 > cur.2 then p else cur) rest

/-- Model of `SummarizerTool._determine_category`. -/
def determine_category (content_text : Str) : Str :=
  let scores := categoriesList.map (fun p => (p.1, keywordScore p.2 content_text))
  match scores with
  | [] => "General".toList
  | p :: rest =>
    let best := maxKeyFirst p rest
    if best.2 > 0 then best.1 else "General".toList

/-- The category determination as the specification words it: score the five
categories, return the max-scoring one, break ties by the first category in
the fixed enumeration order, and return `General` when the maximum is 0. -/
def determine_category_spec (content_text : Str) : Str :=
  let a := keywordScore kwLatestAttacks content_text
  let b := keywordScore kwVulnerabilities content_text
  let c := keywordScore kwNewTools content_text
  let d := keywordScore kwThreatIntelligence content_text
  let e := keywordScore kwGeneral content_text
  if a = 0 ∧ b = 0 ∧ c = 0 ∧ d = 0 ∧ e = 0 then "General".toList
  else if a ≥ b ∧ a ≥ c ∧ a ≥ d ∧ a ≥ e then "Latest Attacks".toList
  else if b ≥ a ∧ b ≥ c ∧ b ≥ d ∧ b ≥ e then "Vulnerabilities".toList
  else if c ≥ a ∧ c ≥ b ∧ c ≥ d ∧ c ≥ e then "New Tools".toList
  else if d ≥ a ∧ d ≥ b ∧ d ≥ c ∧ d ≥ e then "Threat Intelligence".toList
  else "General".toList

/-- Model of `self.severity_keywords` of `SummarizerTool.__init__`, insertion order
High, Medium, Low. -/
def severityKeywordsList : List (Str × List Str) :=
  [("High".toList,
    ["critical".toList, "severe".toList, "urgent".toList, "emergency".toList,
     "zero-day".toList, "ransomware".toList, "breach".toList]),
   ("Medium".toList,
    ["moderate".toList, "significant".toList, "important".toList,
     "vulnerability".toList, "exploit".toList]),
   ("Low".toList,
    ["minor".toList, "update".toList, "patch".toList, "tool".toList,
     "announcement".toList, "guidance".toList])]

/-- Model of `SummarizerTool._determine_severity`. -/
def determine_severity (content_text : Str) : Str :=
  let scores := severityKeywordsList.map (fun p => (p.1, keywordScore p.2 content_text))
  match scores with
  | [] => "Medium".toList
  | p :: rest =>
    let best := maxKeyFirst p rest
    if best.2 > 0 then best.1 else "Medium".toList

/-- The fixed tag vocabulary of `SummarizerTool._extract_tags`. -/
def allTags : List Str :=
  ["ransomware".toList, "malware".toList, "phishing".toList, "breach".toList,
   "vulnerability".toList, "exploit".toList, "cve".toList, "zero-day".toList,
   "apt".toList, "threat".toList, "security".toList, "cybersecurity".toList,
   "infosec".toList, "hack".toList, "attack".toList, "incident".toList,
   "tool".toList, "platform".toList, "framework".toList, "policy".toList,
   "compliance".toList]

/-- Model of `SummarizerTool._extract_tags`: tags present in the text, in vocabulary
order, truncated to 5. -/
def extract_tags (content_text : Str) : List Str :=
  (allTags.filter (fun tag => isSubstrB tag content_text)).take 5

/-- Python `content.split(". ")`: greedy left-to-right split on the
two-character separator; never returns an empty list. -/
def splitDotSpace : Str → List Str
  | [] => [[]]
  | '.' :: ' ' :: rest => [] :: splitDotSpace rest
  | c :: rest =>
    match splitDotSpace rest with
    | s :: ss => (c :: s) :: ss
    | [] => [[c]]

/-- Python `". ".join(parts)`. -/
def joinDotSpace : List Str → Str
  | [] => []
  | [s] => s
  | s :: rest => s ++ '.' :: ' ' :: joinDotSpace rest

/-- The fixed 7-term keyword set of
`SummarizerTool._generate_rule_based_summary`. -/
def cyberKeywords7 : List Str :=
  ["attack".toList, "breach".toList, "vulnerability".toList, "threat".toList,
   "security".toList, "malware".toList, "ransomware".toList]

/-- Keyword count of one sentence:
`sum(1 for keyword in cyber_keywords if keyword in sentence.lower())`. -/
def sentenceScore (s : Str) : Nat :=
  cyberKeywords7.countP (fun k => isSubstrB k (pylower s))

/-- The best-sentence loop of `_generate_rule_based_summary`: scan the
non-first sentences, keeping the first one whose keyword count strictly
exceeds the running maximum (initially the empty string with count 0). -/
def bestSentenceGo (best : Str) (maxK : Nat) : List Str → Str
  | [] => best
  | s :: rest =>
    if sentenceScore s > maxK then bestSentenceGo s (sentenceScore s) rest
    else bestSentenceGo best maxK rest

/-- Model of `SummarizerTool._generate_rule_based_summary`. -/
def generate_rule_based_summary (content : Str) : Str :=
  let sentences := splitDotSpace content
  if sentences.length > 1 then
    let first := sentences.headD []
    let best := bestSentenceGo [] 0 sentences.tail
    let summarySentences :=
      if best ≠ [] ∧ best ≠ first then [first, best] else [first]
    joinDotSpace summarySentences ++ ['.']
  else
    if content.length > 200 then content.take 200 ++ "...".toList else content

/-- The rule-based summary as the claim words it: first sentence plus the
best-scoring later sentence, the first sentence alone exactly when no later
sentence contains any keyword. -/
def summary_spec (content : Str) : Str :=
  let sentences := splitDotSpace content
  if sentences.length > 1 then
    let first := sentences.headD []
    let best := bestSentenceGo [] 0 sentences.tail
    joinDotSpace (if best = [] then [first] else [first, best]) ++ ['.']
  else
    if content.length > 200 then content.take 200 ++ "...".toList else content

/-- The rule-based summary as amended: additionally, when the selected later
sentence is textually equal to the first sentence, only the first sentence
is kept. -/
def summary_spec_amended (content : Str) : Str :=
  let sentences := splitDotSpace content
  if sentences.length > 1 then
    let first := sentences.headD []
    let best := bestSentenceGo [] 0 sentences.tail
    joinDotSpace (if best = [] ∨ best = first then [first] else [first, best])
      ++ ['.']
  else
    if content.length > 200 then content.take 200 ++ "...".toList else content

/-- Model of `SummarizerTool._analyze_with_rules`: `content_text` is the lower-cased
concatenation of title, a space, and content. -/
def analyze_with_rules (it : NewsItem) : Analysis :=
  let content_text := pylower (it.title ++ ' ' :: it.content)
  { summary := generate_rule_based_summary it.content
    category := determine_category content_text
    severity := determine_severity content_text
    tags := extract_tags content_text }

/-! ### The Gemini / rule-based strategy state machine -/

/-- The mutable strategy flag of `SummarizerTool` (`self.use_gemini`). -/
structure SummarizerState where
  use_gemini : Bool
deriving DecidableEq

/-- Outcome of one external Gemini call: either a successfully parsed
analysis (the success path of `_analyze_with_gemini`) or an exception whose
message is recorded. -/
inductive GeminiOutcome where
  | success (a : Analysis)
  | failure (errorMsg : Str)

/-- The quota test of `_analyze_with_gemini`:
`"quota" in error_msg.lower() or "429" in error_msg`. -/
def isQuotaError (errorMsg : Str) : Bool :=
  isSubstrB ("quota".toList) (pylower errorMsg) || isSubstrB ("429".toList) errorMsg

/-- Model of `SummarizerTool._analyze_with_gemini`: on failure, a quota signature
clears `use_gemini` and the call itself returns the rule-based analysis. -/
def analyze_with_gemini (st : SummarizerState) (outcome : GeminiOutcome)
    (it : NewsItem) : Analysis × SummarizerState :=
  match outcome with
  | .success a => (a, st)
  | .failure msg =>
    let st' := if isQuotaError msg then { st with use_gemini := false } else st
    (analyze_with_rules it, st')

/-- Model of `SummarizerTool.analyze_news_item`: production mode forces the
rule-based path; otherwise dispatch on `use_gemini`. -/
def analyze_news_item (production : Bool) (st : SummarizerState)
    (outcome : GeminiOutcome) (it : NewsItem) : Analysis × SummarizerState :=
  if production then (analyze_with_rules it, st)
  else if st.use_gemini then analyze_with_gemini st outcome it
  else (analyze_with_rules it, st)

/-- A sequence of `analyze_news_item` calls, threading the strategy state;
each call consumes the Gemini outcome the external service would produce
for it. -/
def analyzeSeq (production : Bool) (st : SummarizerState) :
    List (GeminiOutcome × NewsItem) → List Analysis × SummarizerState
  | [] => ([], st)
  | (outcome, it) :: rest =>
    let (a, st') := analyze_news_item production st outcome it
    let (as, stF) := analyzeSeq production st' rest
    (a :: as, stF)

/-! ## tools/notification_service.py : NotificationService (subscriber set) -/

/-- The normalisation applied by `add_subscriber` and `remove_subscriber`:
`email.strip().lower()`. -/
def normEmail (e : Str) : Str := pylower (pystrip e)

/-- Set insertion on the list model of the Python `set` (keeps first
occurrence, so no duplicate is ever introduced). -/
def setInsert (s : List Str) (x : Str) : List Str :=
  if x ∈ s then s else s ++ [x]

/-- Removal of one element from the list model of the Python `set`. -/
def setRemove (x : Str) : List Str → List Str
  | [] => []
  | y :: t => if y = x then t else y :: setRemove x t

/-- Model of `NotificationService._load_subscribers`, with the file contents given as
a list of lines: keep `line.strip().lower()` for every line whose strip is
non-empty, as a set. -/
def load_subscribers (lines : List Str) : List Str :=
  lines.foldl
    (fun s l => if pystrip l = [] then s else setInsert s (normEmail l)) []

/-- Model of `NotificationService.add_subscriber`: returns `(False, unchanged)` when
the normalised email is already present, otherwise `(True, set with the
normalised email added)`. (Persistence and the welcome email are external
side effects outside the set state.) -/
def add_subscriber (subs : List Str) (email : Str) : Bool × List Str :=
  let e := normEmail email
  if e ∈ subs then (false, subs) else (true, subs ++ [e])

/-- Model of `NotificationService.remove_subscriber`. -/
def remove_subscriber (subs : List Str) (email : Str) : Bool × List Str :=
  let e := normEmail email
  if e ∈ subs then (true, setRemove e subs) else (false, subs)

/-- One mutation of the subscriber set. -/
inductive SubOp where
  | add (email : Str)
  | remove (email : Str)

/-- Apply one mutation, keeping only the resulting set. -/
def applySubOp (subs : List Str) : SubOp → List Str
  | .add e => (add_subscriber subs e).2
  | .remove e => (remove_subscriber subs e).2

/-- Apply a sequence of add/remove calls. -/
def applySubOps (subs : List Str) (ops : List SubOp) : List Str :=
  ops.foldl applySubOp subs

/-- The email-format validation of the repository (the regex
`^[^\s@]+@[^\s@]+\.[^\s@]+$` of `app.py`, applied in the web layer, not in
`NotificationService`): one `@`, a non-empty local part, and a domain part
containing a dot with non-empty text on both sides, with no whitespace and
no further `@` anywhere. -/
def emailChar (c : Char) : Bool := !(isSpaceB c) && c ≠ '@'

/-- The domain part matches `[^\s@]+\.[^\s@]+`. -/
def validDomain (b : Str) : Bool :=
  b.all emailChar &&
  (List.range b.length).any (fun i => b.getD i ' ' = '.' && 1 ≤ i && i + 2 ≤ b.length)

/-- Whole-address validation per the repository regex. -/
def validEmail (s : Str) : Bool :=
  match s.splitOn '@' with
  | [a, b] => !a.isEmpty && a.all emailChar && validDomain b
  | _ => false

/-! ## tools/report_generator.py : ReportGeneratorTool (email summary) -/

/-- Model of `ReportGeneratorTool._get_severity_statistics`: identical counting to
`CyberNewsAgent.get_severity_stats`, unknown severities skipped. -/
def get_severity_statistics (items : List NewsItem) : SeverityStats :=
  get_severity_stats items

/-- The fixed three-key ranking dictionary `{High: 3, Medium: 2,
Low: 1}` indexed by `x.severity` inside `_format_email_html`; `none`
models the `KeyError` raised on any other key. -/
def severityRank (severity : Str) : Option Nat :=
  if severity = "High".toList then some 3
  else if severity = "Medium".toList then some 2
  else if severity = "Low".toList then some 1
  else none

/-- The sort key `(rank, published_at)` with the rank already checked. -/
def sortKeyRank (it : NewsItem) : Nat := (severityRank it.severity).getD 0

/-- Strict descending lexicographic comparison of the sort keys. -/
def keyGT (x y : NewsItem) : Bool :=
  sortKeyRank x > sortKeyRank y ||
  (sortKeyRank x = sortKeyRank y && x.published_at > y.published_at)

/-- Stable descending insertion: place `x` before the first element it does
not compare strictly greater than only when it is strictly greater, so
elements with equal keys keep their original relative order, as Python
`sorted(..., reverse=True)` guarantees. -/
def insertDesc (x : NewsItem) : List NewsItem → List NewsItem
  | [] => [x]
  | y :: t => if keyGT x y || !(keyGT y x) then x :: y :: t else y :: insertDesc x t

/-- Model of `sorted(news_items, key=(rank, published_at), reverse=True)`. -/
def sortByDesc : List NewsItem → List NewsItem
  | [] => []
  | x :: t => insertDesc x (sortByDesc t)

/-- The greeting chosen from the current hour in `_format_email_html`. -/
def emailGreeting (hour : Nat) : Str :=
  if hour < 12 then "Good morning".toList
  else if hour < 17 then "Good afternoon".toList
  else "Good evening".toList

/-- The intro sentence of `_format_email_html`. -/
def emailIntro (total high medium : Nat) : Str :=
  if high > 0 then
    "We have identified ".toList ++ natStr high ++
    " critical security alerts that require immediate attention, along with ".toList ++
    natStr (total - high) ++ " other important updates.".toList
  else if medium > 0 then
    "Todays cybersecurity landscape shows ".toList ++ natStr medium ++
    " medium-severity incidents among ".toList ++ natStr total ++
    " total security updates.".toList
  else
    "Here are todays ".toList ++ natStr total ++
    " cybersecurity updates and industry developments.".toList

/-- The per-article summary expression of `_format_email_html`, with
Python conditional-expression precedence: when the content is longer than
200 characters the summary is `article.summary or content[:200] + "..."`,
otherwise it is the content itself. -/
def emailArticleSummary (it : NewsItem) : Str :=
  if it.content.length > 200 then
    (if it.summary = [] then it.content.take 200 ++ "...".toList else it.summary)
  else it.content

/-- One article block of the HTML body (static markup condensed to its
dynamic fields: title link, summary, source, severity class and label). -/
def emailArticleBlock (it : NewsItem) : Str :=
  "<div class=article><a href=".toList ++ it.url ++ ">".toList ++ it.title ++
  "</a><div>".toList ++ emailArticleSummary it ++
  "</div><span>".toList ++ it.source ++ "</span><span class=severity ".toList ++
  pylower it.severity ++ ">".toList ++ it.severity ++ "</span></div>".toList

/-- Model of `ReportGeneratorTool._format_email_html`, with the static HTML/CSS
template condensed to its dynamic parts. The top-articles computation
indexes the three-key ranking dictionary for every item (Python `sorted`
evaluates the key function on each element before sorting), so the call
raises `KeyError` — modelled as `Except.error ()` — exactly when some
item has severity outside {High, Medium, Low}. -/
def format_email_html (hour : Nat) (nowStr : Str) (items : List NewsItem)
    (stats : SeverityStats) : Except Unit Str :=
  if items.all (fun it => (severityRank it.severity).isSome) then
    let top_articles := (sortByDesc items).take 5
    .ok ("<html><body>".toList ++ emailGreeting hour ++
      ", here are todays top cybersecurity updates.".toList ++
      emailIntro items.length stats.high stats.medium ++
      "Total Updates: ".toList ++ natStr items.length ++
      " Critical Alerts: ".toList ++ natStr stats.high ++
      " Medium Priority: ".toList ++ natStr stats.medium ++
      " Low Priority: ".toList ++ natStr stats.low ++
      (top_articles.map emailArticleBlock).flatten ++
      "Generated on ".toList ++ nowStr ++ "</body></html>".toList)
  else .error ()

/-- The subject line of `generate_email_summary`. -/
def emailSubject (stats : SeverityStats) (total : Nat) : Str :=
  if stats.high > 0 then
    "URGENT: ".toList ++ natStr stats.high ++ " Critical Cybersecurity Alerts".toList
  else if stats.medium > 0 then
    natStr stats.medium ++ " Medium-Severity Security Updates".toList
  else
    "Daily Cybersecurity Digest - ".toList ++ natStr total ++ " Updates".toList

/-- Model of `ReportGeneratorTool.generate_email_summary`: severity statistics,
subject, then the HTML body; when the body raises, the call raises. -/
def generate_email_summary (hour : Nat) (nowStr : Str)
    (items : List NewsItem) : Except Unit (Str × Str) :=
  let stats := get_severity_statistics items
  let subject := emailSubject stats items.length
  match format_email_html hour nowStr items stats with
  | .ok body => .ok (subject, body)
  | .error e => .error e

/-! ## Theorems -/

lemma searchGo_eq_filter (ql : Str) (items : List NewsItem) :
    searchGo ql items = items.filter (fun it => searchMatch ql it) := by
  induction items with
  | nil => rfl
  | cons it rest ih =>
    by_cases h : searchMatch ql it <;> simp [searchGo, List.filter_cons, h, ih]

/-- C7: for every query string and list of items, `search_news` returns
exactly the items in which the lower-cased query is a substring of the
lower-cased title, the lower-cased content, or some lower-cased tag,
in input order, with no item omitted or added. -/
theorem C7_search_news_exact (query : Str) (items : List NewsItem) :
    search_news query items =
      items.filter (fun it =>
        isSubstrB (pylower query) (pylower it.title) ||
        isSubstrB (pylower query) (pylower it.content) ||
        it.tags.any (fun tag => isSubstrB (pylower query) (pylower tag))) ∧
    List.Sublist (search_news query items) items := by
  have h : search_news query items
      = items.filter (fun it => searchMatch (pylower query) it) :=
    searchGo_eq_filter (pylower query) items
  constructor
  · simpa [searchMatch] using h
  · rw [h]; exact List.filter_sublist items

/-- C8: batch classification returns a list of the same length in the same
order; at every position, a failing per-item analysis (`f it = none`)
leaves the item unmodified while the rest of the batch is still processed,
and a succeeding analysis rewrites exactly the four classified fields. -/
theorem C8_batch_isolation (f : NewsItem → Option Analysis)
    (items : List NewsItem) :
    (analyze_and_categorize f items).length = items.length ∧
    (∀ i : Nat, ∀ it : NewsItem, items[i]? = some it →
      (f it = none → (analyze_and_categorize f items)[i]? = some it) ∧
      (∀ a : Analysis, f it = some a →
        (analyze_and_categorize f items)[i]? = some (updateItem it a))) := by
  constructor
  · induction items with
    | nil => rfl
    | cons it rest ih => simp [analyze_and_categorize, ih]
  · intro i it hi
    induction items generalizing i with
    | nil => simp at hi
    | cons hd rest ih =>
      cases i with
      | zero =>
        simp at hi
        subst hi
        constructor
        · intro hn; simp [analyze_and_categorize, hn]
        · intro a ha; simp [analyze_and_categorize, ha]
      | succ j =>
        simp at hi
        have := ih j hi
        simpa [analyze_and_categorize] using this

/-- Sample item used by witnesses (a fully concrete `NewsItem`). -/
def sampleItem : NewsItem :=
  { title := "Ransomware Hits Hospital".toList
    content := "A major attack hit. The breach spread malware fast.".toList
    url := "https://example.com/a".toList
    source := "Feed".toList
    published_at := 100
    category := "General".toList
    severity := "High".toList
    tags := ["ransomware".toList]
    summary := [] }

/-- Witness for C8 at a concrete input: with a failing analysis the single
item of the batch is returned unchanged at its position. -/
theorem C8_batch_isolation_witness :
    ([sampleItem] : List NewsItem)[0]? = some sampleItem ∧
    (analyze_and_categorize (fun _ => none) [sampleItem])[0]? = some sampleItem := by
  refine ⟨by decide, ?_⟩
  exact ((C8_batch_isolation (fun _ => none) [sampleItem]).2 0 sampleItem (by decide)).1 rfl

lemma addToCategory_fields (c : CategorizedNews) (it : NewsItem) :
    (addToCategory c it).latestAttacks
      = c.latestAttacks ++ (if it.category = "Latest Attacks".toList then [it] else []) ∧
    (addToCategory c it).newTools
      = c.newTools ++ (if it.category = "New Tools".toList then [it] else []) ∧
    (addToCategory c it).threatIntelligence
      = c.threatIntelligence ++ (if it.category = "Threat Intelligence".toList then [it] else []) ∧
    (addToCategory c it).vulnerabilities
      = c.vulnerabilities ++ (if it.category = "Vulnerabilities".toList then [it] else []) ∧
    (addToCategory c it).general
      = c.general ++ (if it.category ≠ "Latest Attacks".toList ∧ it.category ≠ "New Tools".toList ∧
          it.category ≠ "Threat Intelligence".toList ∧ it.category ≠ "Vulnerabilities".toList
          then [it] else []) := by
  unfold addToCategory
  split_ifs <;> simp_all

lemma foldl_addToCategory_spec (items : List NewsItem) : ∀ c : CategorizedNews,
    (items.foldl addToCategory c).latestAttacks
      = c.latestAttacks ++ items.filter (fun it => it.category == "Latest Attacks".toList) ∧
    (items.foldl addToCategory c).newTools
      = c.newTools ++ items.filter (fun it => it.category == "New Tools".toList) ∧
    (items.foldl addToCategory c).threatIntelligence
      = c.threatIntelligence ++ items.filter (fun it => it.category == "Threat Intelligence".toList) ∧
    (items.foldl addToCategory c).vulnerabilities
      = c.vulnerabilities ++ items.filter (fun it => it.category == "Vulnerabilities".toList) ∧
    (items.foldl addToCategory c).general
      = c.general ++ items.filter (fun it =>
          !(it.category == "Latest Attacks".toList) && !(it.category == "New Tools".toList) &&
          !(it.category == "Threat Intelligence".toList) && !(it.category == "Vulnerabilities".toList)) := by
  induction items with
  | nil => intro c; simp
  | cons it rest ih =>
    intro c
    obtain ⟨h1, h2, h3, h4, h5⟩ := ih (addToCategory c it)
    obtain ⟨g1, g2, g3, g4, g5⟩ := addToCategory_fields c it
    refine ⟨?_, ?_, ?_, ?_, ?_⟩ <;>
      simp only [List.foldl_cons, h1, h2, h3, h4, h5, g1, g2, g3, g4, g5,
        List.filter_cons] <;>
      split_ifs <;> simp_all

lemma bucketOf_beq (it : NewsItem) (k : Str) (hk : k ∈ categoryKeys)
    (hkG : k ≠ "General".toList) :
    (bucketOf it == k) = (it.category == k) := by
  unfold bucketOf
  by_cases h : it.category ∈ categoryKeys
  · simp [h]
  · have h2 : it.category ≠ k := fun e => h (e ▸ hk)
    simp [h, beq_iff_eq, h2]
    exact fun e => hkG e.symm

lemma bucketOf_general (it : NewsItem) :
    (bucketOf it == "General".toList) =
      (!(it.category == "Latest Attacks".toList) && !(it.category == "New Tools".toList) &&
       !(it.category == "Threat Intelligence".toList) && !(it.category == "Vulnerabilities".toList)) := by
  unfold bucketOf
  by_cases h : it.category ∈ categoryKeys
  · simp [categoryKeys] at h
    rcases h with h | h | h | h | h <;> simp [h, categoryKeys]
  · simp [categoryKeys] at h
    obtain ⟨n1, n2, n3, n4, n5⟩ := h
    simp [categoryKeys, n1, n2, n3, n4, n5]

lemma category_partition_length (items : List NewsItem) :
    (items.filter (fun it => it.category == "Latest Attacks".toList)).length +
    (items.filter (fun it => it.category == "New Tools".toList)).length +
    (items.filter (fun it => it.category == "Threat Intelligence".toList)).length +
    (items.filter (fun it => it.category == "Vulnerabilities".toList)).length +
    (items.filter (fun it =>
      !(it.category == "Latest Attacks".toList) && !(it.category == "New Tools".toList) &&
      !(it.category == "Threat Intelligence".toList) && !(it.category == "Vulnerabilities".toList))).length
    = items.length := by
  induction items with
  | nil => rfl
  | cons it rest ih =>
    by_cases h1 : it.category = "Latest Attacks".toList <;>
    by_cases h2 : it.category = "New Tools".toList <;>
    by_cases h3 : it.category = "Threat Intelligence".toList <;>
    by_cases h4 : it.category = "Vulnerabilities".toList <;>
      (try simp at h1 h2 h3 h4) <;>
      (try simp [List.filter_cons, h1, h2, h3, h4] at ih ⊢) <;> omega

/-- C6: `get_categorized_news` buckets every item exactly once: each of the
five fixed buckets holds, in input order, exactly the items routed to it
(its own category when that is one of the five keys, otherwise `General`),
and the bucket sizes sum to the input length, so the union of the buckets
is the input with each item exactly once. -/
theorem C6_categorized_partition (items : List NewsItem) :
    (get_categorized_news items).latestAttacks
      = items.filter (fun it => bucketOf it == "Latest Attacks".toList) ∧
    (get_categorized_news items).newTools
      = items.filter (fun it => bucketOf it == "New Tools".toList) ∧
    (get_categorized_news items).threatIntelligence
      = items.filter (fun it => bucketOf it == "Threat Intelligence".toList) ∧
    (get_categorized_news items).vulnerabilities
      = items.filter (fun it => bucketOf it == "Vulnerabilities".toList) ∧
    (get_categorized_news items).general
      = items.filter (fun it => bucketOf it == "General".toList) ∧
    (get_categorized_news items).latestAttacks.length +
      (get_categorized_news items).newTools.length +
      (get_categorized_news items).threatIntelligence.length +
      (get_categorized_news items).vulnerabilities.length +
      (get_categorized_news items).general.length = items.length := by
  obtain ⟨h1, h2, h3, h4, h5⟩ := foldl_addToCategory_spec items emptyCategorized
  have e1 : (get_categorized_news items).latestAttacks
      = items.filter (fun it => it.category == "Latest Attacks".toList) := by
    simpa [emptyCategorized] using h1
  have e2 : (get_categorized_news items).newTools
      = items.filter (fun it => it.category == "New Tools".toList) := by
    simpa [emptyCategorized] using h2
  have e3 : (get_categorized_news items).threatIntelligence
      = items.filter (fun it => it.category == "Threat Intelligence".toList) := by
    simpa [emptyCategorized] using h3
  have e4 : (get_categorized_news items).vulnerabilities
      = items.filter (fun it => it.category == "Vulnerabilities".toList) := by
    simpa [emptyCategorized] using h4
  have e5 : (get_categorized_news items).general
      = items.filter (fun it =>
          !(it.category == "Latest Attacks".toList) && !(it.category == "New Tools".toList) &&
          !(it.category == "Threat Intelligence".toList) && !(it.category == "Vulnerabilities".toList)) := by
    simpa [emptyCategorized] using h5
  have f1 : items.filter (fun it => bucketOf it == "Latest Attacks".toList)
      = items.filter (fun it => it.category == "Latest Attacks".toList) :=
    List.filter_congr (fun it _ => bucketOf_beq it _ (by decide) (by decide))
  have f2 : items.filter (fun it => bucketOf it == "New Tools".toList)
      = items.filter (fun it => it.category == "New Tools".toList) :=
    List.filter_congr (fun it _ => bucketOf_beq it _ (by decide) (by decide))
  have f3 : items.filter (fun it => bucketOf it == "Threat Intelligence".toList)
      = items.filter (fun it => it.category == "Threat Intelligence".toList) :=
    List.filter_congr (fun it _ => bucketOf_beq it _ (by decide) (by decide))
  have f4 : items.filter (fun it => bucketOf it == "Vulnerabilities".toList)
      = items.filter (fun it => it.category == "Vulnerabilities".toList) :=
    List.filter_congr (fun it _ => bucketOf_beq it _ (by decide) (by decide))
  have f5 : items.filter (fun it => bucketOf it == "General".toList)
      = items.filter (fun it =>
          !(it.category == "Latest Attacks".toList) && !(it.category == "New Tools".toList) &&
          !(it.category == "Threat Intelligence".toList) && !(it.category == "Vulnerabilities".toList)) :=
    List.filter_congr (fun it _ => bucketOf_general it)
  refine ⟨by rw [e1, f1], by rw [e2, f2], by rw [e3, f3], by rw [e4, f4],
    by rw [e5, f5], ?_⟩
  rw [e1, e2, e3, e4, e5]
  exact category_partition_length items

lemma select5_eq (a b c d e : Nat) :
    (if (maxKeyFirst ("Latest Attacks".toList, a)
        [("Vulnerabilities".toList, b), ("New Tools".toList, c),
         ("Threat Intelligence".toList, d), ("General".toList, e)]).2 > 0
      then (maxKeyFirst ("Latest Attacks".toList, a)
        [("Vulnerabilities".toList, b), ("New Tools".toList, c),
         ("Threat Intelligence".toList, d), ("General".toList, e)]).1
      else "General".toList)
    = (if a = 0 ∧ b = 0 ∧ c = 0 ∧ d = 0 ∧ e = 0 then "General".toList
       else if a ≥ b ∧ a ≥ c ∧ a ≥ d ∧ a ≥ e then "Latest Attacks".toList
       else if b ≥ a ∧ b ≥ c ∧ b ≥ d ∧ b ≥ e then "Vulnerabilities".toList
       else if c ≥ a ∧ c ≥ b ∧ c ≥ d ∧ c ≥ e then "New Tools".toList
       else if d ≥ a ∧ d ≥ b ∧ d ≥ c ∧ d ≥ e then "Threat Intelligence".toList
       else "General".toList) := by
  simp only [maxKeyFirst, apply_ite Prod.snd, apply_ite Prod.fst]
  split_ifs <;> first | rfl | omega | (exfalso; omega)

/-- C3: the rule-based category determination scores the five categories by
the number of their keywords occurring in the text, returns the
max-scoring category, breaks ties by the first category in the fixed
enumeration order (LatestAttacks, Vulnerabilities, NewTools,
ThreatIntelligence, General), and returns General whenever the maximum
score is 0. -/
theorem C3_determine_category_correct (text : Str) :
    determine_category text = determine_category_spec text :=
  select5_eq (keywordScore kwLatestAttacks text)
    (keywordScore kwVulnerabilities text) (keywordScore kwNewTools text)
    (keywordScore kwThreatIntelligence text) (keywordScore kwGeneral text)

lemma dedupGo_sublist (items : List NewsItem) :
    ∀ seen : List Str, List.Sublist (dedupGo seen items) items := by
  induction items with
  | nil => intro seen; simp [dedupGo]
  | cons it rest ih =>
    intro seen
    by_cases h : normTitle it.title ∈ seen
    · simpa [dedupGo, h] using List.Sublist.cons it (ih seen)
    · simpa [dedupGo, h] using List.Sublist.cons₂ it (ih (normTitle it.title :: seen))

lemma dedupGo_filter_key (items : List NewsItem) :
    ∀ (seen : List Str) (t : Str),
    (dedupGo seen items).filter (fun it => normTitle it.title == t)
      = if t ∈ seen then []
        else (items.find? (fun it => normTitle it.title == t)).toList := by
  induction items with
  | nil => intro seen t; simp [dedupGo]
  | cons it rest ih =>
    intro seen t
    by_cases hs : normTitle it.title ∈ seen
    · rw [show dedupGo seen (it :: rest) = dedupGo seen rest by simp [dedupGo, hs]]
      rw [ih seen t]
      by_cases ht : t ∈ seen
      · simp [ht]
      · have hne : ¬(normTitle it.title == t) = true := by
          simp only [beq_iff_eq]
          exact fun e => ht (e ▸ hs)
        simp [ht, List.find?_cons, hne]
    · rw [show dedupGo seen (it :: rest)
          = it :: dedupGo (normTitle it.title :: seen) rest by simp [dedupGo, hs]]
      by_cases he : normTitle it.title = t
      · subst he
        rw [List.filter_cons]
        simp only [beq_self_eq_true, if_pos]
        rw [ih (normTitle it.title :: seen) (normTitle it.title)]
        simp [hs, List.find?_cons]
      · rw [List.filter_cons]
        have hne : ¬(normTitle it.title == t) = true := by
          simp only [beq_iff_eq]; exact he
        simp only [hne]
        rw [ih (normTitle it.title :: seen) t]
        by_cases ht : t ∈ seen
        · simp [ht, List.mem_cons]
        · have hts : t ∉ normTitle it.title :: seen := by
            simp only [List.mem_cons, not_or]
            exact ⟨fun e => he e.symm, ht⟩
          simp [hts, ht, List.find?_cons, hne]

/-- C2: the deduplication applied by `collect_news` keeps, for every
distinct normalised (lower-cased, whitespace-trimmed) title, exactly the
first occurrence in concatenation order with all its fields; the kept
items stay in relative order (a sublist of the concatenation); the
returned list is a prefix-sublist of the deduplicated list and has length
at most `max_items`. -/
theorem C2_collect_news_dedup (a b c : List NewsItem) (max_items : Nat) :
    (∀ t : Str,
      (deduplicate_news (a ++ b ++ c)).filter (fun it => normTitle it.title == t)
        = ((a ++ b ++ c).find? (fun it => normTitle it.title == t)).toList) ∧
    List.Sublist (deduplicate_news (a ++ b ++ c)) (a ++ b ++ c) ∧
    List.Sublist (collect_news a b c max_items) (deduplicate_news (a ++ b ++ c)) ∧
    (collect_news a b c max_items).length ≤ max_items := by
  refine ⟨?_, ?_, ?_, ?_⟩
  · intro t
    simpa using dedupGo_filter_key (a ++ b ++ c) [] t
  · exact dedupGo_sublist (a ++ b ++ c) []
  · exact List.take_sublist max_items (deduplicate_news (a ++ b ++ c))
  · simpa [collect_news] using
      (List.length_take_le max_items (deduplicate_news (a ++ b ++ c)))

/-- C4 counterexample: on the content `"attack. attack"` the code and the
claimed behaviour disagree. The claim selects the best-scoring later
sentence (`"attack"`, one keyword) and yields `"attack. attack."`, but the
code additionally drops the selected sentence when it is textually equal
to the first sentence and yields `"attack."`. -/
theorem C4_counterexample :
    generate_rule_based_summary ("attack. attack".toList)
      ≠ summary_spec ("attack. attack".toList) ∧
    generate_rule_based_summary ("attack. attack".toList) = "attack.".toList ∧
    summary_spec ("attack. attack".toList) = "attack. attack.".toList := by
  refine ⟨?_, by decide, by decide⟩
  decide

/-- C4 as amended: the rule-based summary is the first sentence plus the
non-first sentence with the most keyword matches (first on ties), except
that the first sentence stands alone when no later sentence contains any
keyword or when the selected sentence is textually equal to the first
sentence; with fewer than two sentences it is the first 200 characters of
the content, with an ellipsis exactly when the content is longer. -/
theorem C4_summary_amended (content : Str) :
    generate_rule_based_summary content = summary_spec_amended content := by
  simp only [generate_rule_based_summary, summary_spec_amended]
  split_ifs <;> first | rfl | tauto

lemma analyzeSeq_rules (production : Bool) (hprod : production = false)
    (calls : List (GeminiOutcome × NewsItem)) :
    ∀ st : SummarizerState, st.use_gemini = false →
    analyzeSeq production st calls
      = (calls.map (fun p => analyze_with_rules p.2), st) := by
  induction calls with
  | nil => intro st _; rfl
  | cons p rest ih =>
    intro st h
    obtain ⟨outcome, it⟩ := p
    have hstep : analyze_news_item production st outcome it
        = (analyze_with_rules it, st) := by
      simp [analyze_news_item, hprod, h]
    simp [analyzeSeq, hstep, ih st h]

/-- C5: in non-production mode with the primary strategy enabled, a Gemini
call failing with a quota/rate-limit signature returns the rule-based
analysis for the current item, clears `use_gemini`, and every subsequent
`analyze_news_item` call — whatever the external service would answer —
takes the rule-based path with the flag still cleared, for any suffix of
the process lifetime. -/
theorem C5_quota_permanent_downgrade (st : SummarizerState) (it : NewsItem)
    (msg : Str) (calls : List (GeminiOutcome × NewsItem))
    (hg : st.use_gemini = true) (hq : isQuotaError msg = true) :
    (analyze_news_item false st (.failure msg) it).1 = analyze_with_rules it ∧
    (analyze_news_item false st (.failure msg) it).2.use_gemini = false ∧
    (analyzeSeq false (analyze_news_item false st (.failure msg) it).2 calls).1
      = calls.map (fun p => analyze_with_rules p.2) ∧
    (analyzeSeq false (analyze_news_item false st (.failure msg) it).2 calls).2.use_gemini
      = false := by
  have hstep : analyze_news_item false st (.failure msg) it
      = (analyze_with_rules it, { st with use_gemini := false }) := by
    simp [analyze_news_item, hg, analyze_with_gemini, hq]
  have hseq := analyzeSeq_rules false rfl calls { st with use_gemini := false } rfl
  refine ⟨by rw [hstep], by rw [hstep], ?_, ?_⟩
  · rw [hstep, hseq]
  · rw [hstep, hseq]

/-- Witness for C5: a concrete quota failure (message containing `quota`)
downgrades a concretely enabled summarizer and the following call is
rule-based. -/
theorem C5_quota_permanent_downgrade_witness :
    (⟨true⟩ : SummarizerState).use_gemini = true ∧
    isQuotaError ("429 quota exceeded".toList) = true ∧
    (analyze_news_item false ⟨true⟩ (.failure ("429 quota exceeded".toList)) sampleItem).1
      = analyze_with_rules sampleItem ∧
    (analyzeSeq false
        (analyze_news_item false ⟨true⟩ (.failure ("429 quota exceeded".toList)) sampleItem).2
        [(.success ⟨[], [], [], []⟩, sampleItem)]).1
      = [analyze_with_rules sampleItem] := by
  refine ⟨rfl, by decide, ?_, ?_⟩
  · exact (C5_quota_permanent_downgrade ⟨true⟩ sampleItem ("429 quota exceeded".toList)
      [(.success ⟨[], [], [], []⟩, sampleItem)] rfl (by decide)).1
  · exact (C5_quota_permanent_downgrade ⟨true⟩ sampleItem ("429 quota exceeded".toList)
      [(.success ⟨[], [], [], []⟩, sampleItem)] rfl (by decide)).2.2.1

lemma statsSum_le_length (items : List NewsItem) :
    statsSum (get_severity_stats items) ≤ items.length := by
  induction items with
  | nil => simp [get_severity_stats, statsSum]
  | cons it rest ih =>
    simp only [get_severity_stats, List.length_cons]
    split_ifs <;> simp [statsSum] at ih ⊢ <;> omega

lemma statsSum_eq_length (items : List NewsItem)
    (h : ∀ it ∈ items, it.severity = "High".toList ∨
      it.severity = "Medium".toList ∨ it.severity = "Low".toList) :
    statsSum (get_severity_stats items) = items.length := by
  induction items with
  | nil => simp [get_severity_stats, statsSum]
  | cons it rest ih =>
    have hit := h it (List.mem_cons_self it rest)
    have hrest := ih fun x hx => h x (List.mem_cons_of_mem it hx)
    simp only [get_severity_stats, List.length_cons]
    rcases hit with hv | hv | hv <;>
      simp only [hv] <;> split_ifs <;>
      simp [statsSum] at hrest ⊢ <;> omega

/-- Item with a severity outside {High, Medium, Low}, and a summarizer call
that raises, exercising the retained-item path of the pipeline. -/
def cexCriticalItem : NewsItem :=
  { title := "T".toList
    content := "C".toList
    url := "u".toList
    source := "s".toList
    published_at := 0
    category := "General".toList
    severity := "Critical".toList
    tags := []
    summary := [] }

/-- C1 counterexample: a pipeline run over one source item whose severity
stays `"Critical"` (its per-item analysis raises, so the item is retained
unmodified) produces `severity_stats` summing to 0 while `total_items`
is 1, refuting the claim that the sum equals `total_items` even when a
severity lies outside {High, Medium, Low}. -/
theorem C1_counterexample :
    (∃ it ∈ (run_full_pipeline (fun _ => none) (fun _ => []) 0
        [cexCriticalItem] [] [] 10).news_items,
      ¬(it.severity = "High".toList ∨ it.severity = "Medium".toList ∨
        it.severity = "Low".toList)) ∧
    ¬(statsSum (run_full_pipeline (fun _ => none) (fun _ => []) 0
        [cexCriticalItem] [] [] 10).severity_stats
      = (run_full_pipeline (fun _ => none) (fun _ => []) 0
        [cexCriticalItem] [] [] 10).total_items) := by
  constructor
  · exact ⟨cexCriticalItem, by decide, by decide⟩
  · decide

/-- C1 as amended: in every pipeline result, `total_items` equals the
length of `news_items`, the severity counts sum to at most `total_items`,
and the sum equals `total_items` whenever every classified item severity
lies in {High, Medium, Low}; the original unconditional equality fails for
out-of-range severities because `get_severity_stats` does not count them. -/
theorem C1_severity_sum_amended (f : NewsItem → Option Analysis)
    (digest : List NewsItem → Str) (ts : Nat)
    (a b c : List NewsItem) (max_items : Nat) :
    (run_full_pipeline f digest ts a b c max_items).total_items
      = (run_full_pipeline f digest ts a b c max_items).news_items.length ∧
    statsSum (run_full_pipeline f digest ts a b c max_items).severity_stats
      ≤ (run_full_pipeline f digest ts a b c max_items).total_items ∧
    ((∀ it ∈ (run_full_pipeline f digest ts a b c max_items).news_items,
        it.severity = "High".toList ∨ it.severity = "Medium".toList ∨
        it.severity = "Low".toList) →
      statsSum (run_full_pipeline f digest ts a b c max_items).severity_stats
        = (run_full_pipeline f digest ts a b c max_items).total_items) := by
  refine ⟨rfl, ?_, ?_⟩
  · exact statsSum_le_length _
  · intro h
    exact statsSum_eq_length _ h

/-- Witness for C1 as amended: a concrete run in which the single item is
classified with severity High, so the severity counts sum to the total. -/
theorem C1_severity_sum_amended_witness :
    (∀ it ∈ (run_full_pipeline
        (fun _ => some ⟨[], "General".toList, "High".toList, []⟩)
        (fun _ => []) 0 [cexCriticalItem] [] [] 10).news_items,
      it.severity = "High".toList ∨ it.severity = "Medium".toList ∨
      it.severity = "Low".toList) ∧
    statsSum (run_full_pipeline
        (fun _ => some ⟨[], "General".toList, "High".toList, []⟩)
        (fun _ => []) 0 [cexCriticalItem] [] [] 10).severity_stats
      = (run_full_pipeline
        (fun _ => some ⟨[], "General".toList, "High".toList, []⟩)
        (fun _ => []) 0 [cexCriticalItem] [] [] 10).total_items := by
  refine ⟨by decide, ?_⟩
  exact (C1_severity_sum_amended
      (fun _ => some ⟨[], "General".toList, "High".toList, []⟩)
      (fun _ => []) 0 [cexCriticalItem] [] [] 10).2.2 (by decide)

lemma lowerChar_cases (c : Char) :
    lowerChar c = c ∨
    (c ∈ "ABCDEFGHIJKLMNOPQRSTUVWXYZ".toList ∧
      lowerChar c ∈ "abcdefghijklmnopqrstuvwxyz".toList) := by
  by_cases hm : c ∈ "ABCDEFGHIJKLMNOPQRSTUVWXYZ".toList
  · right
    refine ⟨hm, ?_⟩
    fin_cases hm <;> decide
  · left
    simp only [String.toList, List.mem_cons, not_or] at hm
    obtain ⟨nA, nB, nC, nD, nE, nF, nG, nH, nI, nJ, nK, nL, nM,
      nN, nO, nP, nQ, nR, nS, nT, nU, nV, nW, nX, nY, nZ, -⟩ := hm
    simp [lowerChar, nA, nB, nC, nD, nE, nF, nG, nH, nI, nJ, nK, nL, nM,
      nN, nO, nP, nQ, nR, nS, nT, nU, nV, nW, nX, nY, nZ]

lemma lowerChar_idem (c : Char) : lowerChar (lowerChar c) = lowerChar c := by
  rcases lowerChar_cases c with h | ⟨_, h⟩
  · rw [h]; exact h
  · have hall : ∀ d ∈ "abcdefghijklmnopqrstuvwxyz".toList, lowerChar d = d := by decide
    rw [hall _ h]

lemma isSpaceB_lowerChar (c : Char) : isSpaceB (lowerChar c) = isSpaceB c := by
  rcases lowerChar_cases c with h | ⟨hc, hl⟩
  · rw [h]
  · have h1 : ∀ d ∈ "ABCDEFGHIJKLMNOPQRSTUVWXYZ".toList, isSpaceB d = false := by decide
    have h2 : ∀ d ∈ "abcdefghijklmnopqrstuvwxyz".toList, isSpaceB d = false := by decide
    rw [h1 _ hc, h2 _ hl]

lemma pylower_idem (s : Str) : pylower (pylower s) = pylower s := by
  induction s with
  | nil => rfl
  | cons c t ih =>
    simp only [pylower, List.map_cons] at ih ⊢
    exact List.cons_eq_cons.mpr ⟨lowerChar_idem c, ih⟩

lemma dropWhile_map_lower (s : Str) :
    List.dropWhile isSpaceB (s.map lowerChar)
      = (List.dropWhile isSpaceB s).map lowerChar := by
  induction s with
  | nil => rfl
  | cons c t ih =>
    by_cases h : isSpaceB c <;>
      simp [List.dropWhile_cons, isSpaceB_lowerChar, h, ih]

lemma pystrip_pylower_comm (s : Str) :
    pystrip (pylower s) = pylower (pystrip s) := by
  show ((List.dropWhile isSpaceB (s.map lowerChar)).reverse.dropWhile isSpaceB).reverse
      = ((s.dropWhile isSpaceB).reverse.dropWhile isSpaceB).reverse.map lowerChar
  rw [dropWhile_map_lower, ← List.map_reverse, dropWhile_map_lower, ← List.map_reverse]

lemma dropWhile_twice (p : Char → Bool) (l : Str) :
    List.dropWhile p (List.dropWhile p l) = List.dropWhile p l := by
  induction l with
  | nil => rfl
  | cons c t ih => by_cases h : p c <;> simp [List.dropWhile_cons, h, ih]

lemma dropWhile_head_not (p : Char → Bool) :
    ∀ (l : Str) (c : Char) (cs : Str), List.dropWhile p l = c :: cs → p c = false := by
  intro l
  induction l with
  | nil => intro c cs h; simp [List.dropWhile] at h
  | cons d t ih =>
    intro c cs h
    by_cases hd : p d
    · rw [List.dropWhile_cons, if_pos hd] at h
      exact ih c cs h
    · rw [List.dropWhile_cons, if_neg hd] at h
      cases h
      simpa using hd

lemma dropWhile_eq_self_of_head (p : Char → Bool) (l : Str)
    (h : ∀ c cs, l = c :: cs → p c = false) : List.dropWhile p l = l := by
  cases l with
  | nil => rfl
  | cons c t => rw [List.dropWhile_cons, if_neg (by simp [h c t rfl])]

lemma pystrip_idem (s : Str) : pystrip (pystrip s) = pystrip s := by
  have hsuffix := List.dropWhile_suffix (l := (List.dropWhile isSpaceB s).reverse)
    (p := isSpaceB)
  obtain ⟨u, hu⟩ := hsuffix
  have hA : List.dropWhile isSpaceB s
      = (List.dropWhile isSpaceB (List.dropWhile isSpaceB s).reverse).reverse
        ++ u.reverse := by
    have := congrArg List.reverse hu
    simpa [List.reverse_append] using this.symm
  have hstep1 : List.dropWhile isSpaceB (pystrip s) = pystrip s := by
    apply dropWhile_eq_self_of_head
    intro c cs hc
    have hc' : (List.dropWhile isSpaceB (List.dropWhile isSpaceB s).reverse).reverse
        = c :: cs := hc
    apply dropWhile_head_not isSpaceB s c (cs ++ u.reverse)
    rw [hA, hc']
    simp
  show ((List.dropWhile isSpaceB (pystrip s)).reverse.dropWhile isSpaceB).reverse
      = pystrip s
  rw [hstep1]
  show ((pystrip s).reverse.dropWhile isSpaceB).reverse = pystrip s
  have : (pystrip s).reverse
      = List.dropWhile isSpaceB (List.dropWhile isSpaceB s).reverse := by
    simp [pystrip]
  rw [this, dropWhile_twice]
  simp [pystrip]

lemma normEmail_strip_fix (x : Str) : pystrip (normEmail x) = normEmail x := by
  unfold normEmail
  rw [pystrip_pylower_comm, pystrip_idem]

lemma normEmail_lower_fix (x : Str) : pylower (normEmail x) = normEmail x := by
  unfold normEmail
  exact pylower_idem _

/-- Well-formedness of the subscriber set: no duplicates, every element
already trimmed and lower-cased. -/
def SubsGood (subs : List Str) : Prop :=
  subs.Nodup ∧ ∀ e ∈ subs, pystrip e = e ∧ pylower e = e

lemma append_norm_good (subs : List Str) (x : Str) (h : SubsGood subs)
    (hx : pystrip x = x ∧ pylower x = x) (hmem : x ∉ subs) :
    SubsGood (subs ++ [x]) := by
  refine ⟨?_, ?_⟩
  · simp [List.nodup_append, h.1, hmem]
  · intro e he
    rcases List.mem_append.mp he with he | he
    · exact h.2 e he
    · simp at he
      subst he
      exact hx

lemma setInsert_good (subs : List Str) (x : Str) (h : SubsGood subs)
    (hx : pystrip x = x ∧ pylower x = x) : SubsGood (setInsert subs x) := by
  unfold setInsert
  by_cases hm : x ∈ subs
  · simpa [hm] using h
  · simpa [hm] using append_norm_good subs x h hx hm

lemma load_subscribers_good (lines : List Str) :
    SubsGood (load_subscribers lines) := by
  suffices hgen : ∀ acc : List Str, SubsGood acc →
      SubsGood (lines.foldl
        (fun s l => if pystrip l = [] then s else setInsert s (normEmail l)) acc) by
    exact hgen [] ⟨List.nodup_nil, by simp⟩
  induction lines with
  | nil => intro acc hacc; exact hacc
  | cons l rest ih =>
    intro acc hacc
    simp only [List.foldl_cons]
    apply ih
    by_cases hl : pystrip l = []
    · simpa [hl] using hacc
    · simpa [hl] using
        setInsert_good acc (normEmail l) hacc ⟨normEmail_strip_fix l, normEmail_lower_fix l⟩

lemma setRemove_sublist (x : Str) : ∀ l : List Str, List.Sublist (setRemove x l) l := by
  intro l
  induction l with
  | nil => simp [setRemove]
  | cons y t ih =>
    by_cases h : y = x
    · simpa [setRemove, h] using List.Sublist.cons y (List.Sublist.refl t)
    · simpa [setRemove, h] using List.Sublist.cons₂ y ih

lemma applySubOp_good (subs : List Str) (op : SubOp) (h : SubsGood subs) :
    SubsGood (applySubOp subs op) := by
  cases op with
  | add e =>
    show SubsGood (add_subscriber subs e).2
    unfold add_subscriber
    by_cases hm : normEmail e ∈ subs
    · simpa [hm] using h
    · simpa [hm] using append_norm_good subs (normEmail e) h
        ⟨normEmail_strip_fix e, normEmail_lower_fix e⟩ hm
  | remove e =>
    show SubsGood (remove_subscriber subs e).2
    unfold remove_subscriber
    by_cases hm : normEmail e ∈ subs
    · have hsub := setRemove_sublist (normEmail e) subs
      refine ⟨?_, ?_⟩ <;> simp only [hm, if_pos]
      · exact List.Nodup.sublist hsub h.1
      · exact fun x hx => h.2 x (hsub.subset hx)
    · simpa [hm] using h

lemma applySubOps_good (subs : List Str) (ops : List SubOp) (h : SubsGood subs) :
    SubsGood (applySubOps subs ops) := by
  induction ops generalizing subs with
  | nil => exact h
  | cons op rest ih =>
    exact ih (applySubOp subs op) (applySubOp_good subs op h)

/-- C9 counterexample: `NotificationService.add_subscriber` performs no
email-format validation, so starting from an empty load the non-address
`"plainword"` is accepted and stored, refuting the part of the claim that
every stored element is a valid email address (validity per the
repository regex, which lives only in the web layer). -/
theorem C9_counterexample :
    (add_subscriber (load_subscribers []) ("plainword".toList)).1 = true ∧
    ("plainword".toList) ∈ (add_subscriber (load_subscribers []) ("plainword".toList)).2 ∧
    validEmail ("plainword".toList) = false := by
  refine ⟨by decide, by decide, by decide⟩

/-- C9 as amended: after any sequence of add/remove calls starting from a
load, the subscriber set contains no duplicates and every element is a
trimmed lower-cased string (a fixed point of strip and of lower — but not
necessarily a valid email address, since the service never validates), and
`add_subscriber` returns `False` exactly when the normalised address is
already present, leaving the set unchanged in that case. -/
theorem C9_subscriber_set_amended (lines : List Str) (ops : List SubOp) :
    (applySubOps (load_subscribers lines) ops).Nodup ∧
    (∀ e ∈ applySubOps (load_subscribers lines) ops,
      pystrip e = e ∧ pylower e = e) ∧
    (∀ email : Str,
      ((add_subscriber (applySubOps (load_subscribers lines) ops) email).1 = false
        ↔ normEmail email ∈ applySubOps (load_subscribers lines) ops) ∧
      ((add_subscriber (applySubOps (load_subscribers lines) ops) email).1 = false →
        (add_subscriber (applySubOps (load_subscribers lines) ops) email).2
          = applySubOps (load_subscribers lines) ops)) := by
  have hgood : SubsGood (applySubOps (load_subscribers lines) ops) :=
    applySubOps_good _ ops (load_subscribers_good lines)
  refine ⟨hgood.1, hgood.2, ?_⟩
  intro email
  constructor
  · unfold add_subscriber
    by_cases hm : normEmail email ∈ applySubOps (load_subscribers lines) ops <;>
      simp [hm]
  · intro hf
    unfold add_subscriber at hf ⊢
    by_cases hm : normEmail email ∈ applySubOps (load_subscribers lines) ops
    · simp [hm]
    · simp [hm] at hf

/-- Witness for C9 as amended at a concrete state: loading one padded
upper-case line yields the set `["a@b.c"]`, whose sole element is trimmed
and lower-cased, and re-adding the same address reports `False` and leaves
the set unchanged. -/
theorem C9_subscriber_set_amended_witness :
    ("a@b.c".toList) ∈ applySubOps (load_subscribers [" A@B.C ".toList]) [] ∧
    (pystrip ("a@b.c".toList) = "a@b.c".toList ∧
      pylower ("a@b.c".toList) = "a@b.c".toList) ∧
    (add_subscriber (applySubOps (load_subscribers [" A@B.C ".toList]) [])
      ("A@b.c".toList)).1 = false ∧
    (add_subscriber (applySubOps (load_subscribers [" A@B.C ".toList]) [])
      ("A@b.c".toList)).2
      = applySubOps (load_subscribers [" A@B.C ".toList]) [] := by
  have h := C9_subscriber_set_amended [" A@B.C ".toList] []
  refine ⟨by decide, ?_, ?_, ?_⟩
  · exact h.2.1 ("a@b.c".toList) (by decide)
  · exact (h.2.2 ("A@b.c".toList)).1.mpr (by decide)
  · exact (h.2.2 ("A@b.c".toList)).2 ((h.2.2 ("A@b.c".toList)).1.mpr (by decide))

/-- C10: `generate_email_summary` is total exactly under the precondition
that the severity of every item is one of High, Medium, Low: for every such
list it returns a subject/body pair, while for a single-item list whose
severity is any other string the three-key ranking lookup of the top-article ordering fails and the call raises (`Except.error`). -/
theorem C10_email_summary_totality :
    (∀ (hour : Nat) (nowStr : Str) (items : List NewsItem),
      (∀ it ∈ items, it.severity = "High".toList ∨ it.severity = "Medium".toList ∨
        it.severity = "Low".toList) →
      ∃ subject body,
        generate_email_summary hour nowStr items = .ok (subject, body)) ∧
    (∀ sev : Str, sev ≠ "High".toList → sev ≠ "Medium".toList →
      sev ≠ "Low".toList →
      generate_email_summary 9 [] [{ cexCriticalItem with severity := sev }]
        = .error ()) := by
  constructor
  · intro hour nowStr items h
    have hall : items.all (fun it => (severityRank it.severity).isSome) = true := by
      rw [List.all_eq_true]
      intro it hit
      rcases h it hit with hv | hv | hv <;> simp [severityRank, hv]
    have hfmt : ∃ body,
        format_email_html hour nowStr items (get_severity_statistics items)
          = .ok body := by
      unfold format_email_html
      rw [if_pos hall]
      exact ⟨_, rfl⟩
    obtain ⟨body, hfmt⟩ := hfmt
    exact ⟨emailSubject (get_severity_statistics items) items.length, body,
      by simp [generate_email_summary, hfmt]⟩
  · intro sev h1 h2 h3
    have hr : severityRank sev = none := by
      unfold severityRank
      rw [if_neg h1, if_neg h2, if_neg h3]
    simp [generate_email_summary, format_email_html, hr]

/-- Witness for C10 at concrete inputs: a one-item list with severity High
yields a subject/body pair, and the same item with severity `"Critical"`
makes the call raise. -/
theorem C10_email_summary_totality_witness :
    (∃ subject body,
      generate_email_summary 9 [] [sampleItem] = .ok (subject, body)) ∧
    generate_email_summary 9 [] [{ cexCriticalItem with severity := "Critical".toList }]
      = .error () := by
  constructor
  · exact C10_email_summary_totality.1 9 [] [sampleItem]
      (by intro it hit; simp at hit; subst hit; left; rfl)
  · exact C10_email_summary_totality.2 ("Critical".toList)
      (by decide) (by decide) (by decide)
